import Mathlib

/-!
# Verification of the Kennel deployment platform

Shallow embedding of the parts of the ScottyLabs/kennel codebase that the
frozen claims refer to, together with theorems settling each claim.

Source files embedded here:
* crates/kennel-deployer/src/utils.rs        (`sanitize_identifier`, `sanitize_username`,
  `generate_deployment_domain`)
* crates/kennel-store/src/port_allocations.rs (`allocate_port`)
* crates/kennel-store/src/deployments.rs      (`mark_for_teardown`, `find_active_by_ref`)
* crates/kennel-store/src/builds.rs           (`create_build`) together with the unique
  index of migration m20260226_215312_add_builds_unique_constraint.rs
* crates/kennel-webhook/src/parse.rs          (`parse_push_event`)
* crates/kennel-webhook/src/handler.rs        (`handle_webhook`, push path)
* crates/kennel-deployer/src/service.rs       (`deploy_service`, `determine_environment`)
* crates/kennel-deployer/src/health.rs        (`check_health`, abstracted over real time)
* crates/kennel-deployer/src/teardown.rs      (`process_teardown`)
* crates/kennel-router/src/table.rs           (`load_from_deployments_with_services`)
* crates/kennel-router/src/static_serve.rs    (`serve_static`)
-/

/-! ## Characters and the identifier sanitizer (kennel-deployer/src/utils.rs) -/

/-- Rust's `char::to_ascii_lowercase`: maps `A`..`Z` to `a`..`z`, leaves every
other code point unchanged. -/
def asciiLower (c : Char) : Char :=
  if 65 ≤ c.toNat ∧ c.toNat ≤ 90 then Char.ofNat (c.toNat + 32) else c

/-- Rust's `char::is_alphanumeric` (Unicode `Alphabetic` or `Number`), encoded
exactly for code points up to U+00FF: ASCII digits and letters, the Latin-1
letters `ª µ º À..Ö Ø..ö ø..ÿ` and the Latin-1 numeric characters
`² ³ ¹ ¼ ½ ¾`.  Code points above U+00FF are conservatively mapped to
`false`; the claims below are settled on strings inside this fragment. -/
def rustIsAlphanumeric (c : Char) : Bool :=
  decide ((48 ≤ c.toNat ∧ c.toNat ≤ 57) ∨ (65 ≤ c.toNat ∧ c.toNat ≤ 90) ∨
    (97 ≤ c.toNat ∧ c.toNat ≤ 122) ∨
    c.toNat = 0xAA ∨ c.toNat = 0xB2 ∨ c.toNat = 0xB3 ∨ c.toNat = 0xB5 ∨
    c.toNat = 0xB9 ∨ c.toNat = 0xBA ∨ c.toNat = 0xBC ∨ c.toNat = 0xBD ∨ c.toNat = 0xBE ∨
    (0xC0 ≤ c.toNat ∧ c.toNat ≤ 0xFF ∧ c.toNat ≠ 0xD7 ∧ c.toNat ≠ 0xF7))

/-- One character of `sanitize_identifier`: alphanumeric characters and `-`
are ASCII-lowercased, everything else becomes `-`
(utils.rs lines 2-10). -/
def sanitizeChar (c : Char) : Char :=
  if rustIsAlphanumeric c || c == '-' then asciiLower c else '-'

/-- Model of `sanitize_identifier` from kennel-deployer/src/utils.rs. -/
def sanitize_identifier (s : String) : String :=
  ⟨s.data.map sanitizeChar⟩

/-- Model of `sanitize_username` from kennel-deployer/src/utils.rs. -/
def sanitize_username (project branch service : String) : String :=
  "kennel-" ++ sanitize_identifier project ++ "-" ++ sanitize_identifier branch
    ++ "-" ++ sanitize_identifier service

/-- Model of `generate_deployment_domain` from kennel-deployer/src/utils.rs. -/
def generate_deployment_domain (serviceName branch projectName baseDomain : String) : String :=
  sanitize_identifier serviceName ++ "-" ++ sanitize_identifier branch
    ++ "." ++ projectName ++ "." ++ baseDomain

/-- Character `c` is in the set `[a-z0-9-]`. -/
def inHostAlphabet (c : Char) : Prop :=
  (97 ≤ c.toNat ∧ c.toNat ≤ 122) ∨ (48 ≤ c.toNat ∧ c.toNat ≤ 57) ∨ c = '-'

instance (c : Char) : Decidable (inHostAlphabet c) := by
  unfold inHostAlphabet; infer_instance

theorem char_toNat_ofNat_valid {n : Nat} (h : n < 0xD800) : (Char.ofNat n).toNat = n := by
  have hv : n.isValidChar := Or.inl h
  simp only [Char.ofNat, hv, dite_true]
  rfl

theorem asciiLower_fix {c : Char} (h : ¬(65 ≤ c.toNat ∧ c.toNat ≤ 90)) :
    asciiLower c = c := by
  simp only [asciiLower, h, if_false]

theorem asciiLower_upper {c : Char} (h : 65 ≤ c.toNat ∧ c.toNat ≤ 90) :
    (asciiLower c).toNat = c.toNat + 32 := by
  simp only [asciiLower, h, if_true]
  exact char_toNat_ofNat_valid (by omega)

theorem sanitizeChar_keep {c : Char} (hk : (rustIsAlphanumeric c || c == '-') = true) :
    sanitizeChar c = asciiLower c := by
  simp only [sanitizeChar, hk, if_true]

theorem sanitizeChar_drop {c : Char} (hk : ¬(rustIsAlphanumeric c || c == '-') = true) :
    sanitizeChar c = '-' := by
  simp only [sanitizeChar, hk]
  rfl

theorem rustIsAlphanumeric_dash : (rustIsAlphanumeric '-' || '-' == '-') = true := by decide

/-- The sanitizer is idempotent character by character. -/
theorem sanitizeChar_idem (c : Char) : sanitizeChar (sanitizeChar c) = sanitizeChar c := by
  by_cases hk : (rustIsAlphanumeric c || c == '-') = true
  · rw [sanitizeChar_keep hk]
    by_cases hu : 65 ≤ c.toNat ∧ c.toNat ≤ 90
    · have hlow := asciiLower_upper hu
      have halnum : (rustIsAlphanumeric (asciiLower c) || asciiLower c == '-') = true := by
        apply Bool.or_eq_true_iff.mpr
        left
        simp only [rustIsAlphanumeric, decide_eq_true_eq, hlow]
        right; right; left; omega
      rw [sanitizeChar_keep halnum]
      apply asciiLower_fix
      rw [hlow]; omega
    · rw [asciiLower_fix hu, sanitizeChar_keep hk, asciiLower_fix hu]
  · rw [sanitizeChar_drop hk, sanitizeChar_keep rustIsAlphanumeric_dash]
    decide

/-- Characters produced by the sanitizer that are ASCII lie in `[a-z0-9-]`. -/
theorem sanitizeChar_ascii (c : Char) (h : (sanitizeChar c).toNat < 128) :
    inHostAlphabet (sanitizeChar c) := by
  by_cases hk : (rustIsAlphanumeric c || c == '-') = true
  · rw [sanitizeChar_keep hk] at h ⊢
    by_cases hu : 65 ≤ c.toNat ∧ c.toNat ≤ 90
    · have hlow := asciiLower_upper hu
      exact Or.inl (by omega)
    · rw [asciiLower_fix hu] at h ⊢
      rcases Bool.or_eq_true_iff.mp hk with halnum | hdash
      · rw [rustIsAlphanumeric, decide_eq_true_eq] at halnum
        unfold inHostAlphabet
        rcases halnum with h' | h' | h' | h' | h' | h' | h' | h' | h' | h' | h' | h' | h' <;>
          omega
      · right; right
        exact beq_iff_eq.mp hdash
  · rw [sanitizeChar_drop hk]
    right; right; rfl

/-! ## Port allocation (kennel-store/src/port_allocations.rs) -/

/-- Errors surfaced by the Store (kennel-store/src/error.rs); only the
variants the claims touch are carried. -/
inductive StoreError where
  | portPoolExhausted : StoreError
  | valkeyDbPoolExhausted : StoreError
  | uniqueViolation : StoreError
  deriving DecidableEq, Repr

/-- One row of the `PortAllocation` table, primary-keyed by `port`
(kennel-store/src/port_allocations.rs). -/
structure PortAllocationRow where
  port : Int
  deploymentId : Option Nat
  projectName : Option String
  serviceName : Option String
  branch : Option String
  deriving DecidableEq, Repr

def PORT_MIN : Int := 18000

def PORT_MAX : Int := 19999

/-- The linear scan `(PORT_MIN..=PORT_MAX).find(|p| !allocated_set.contains(p))`,
written with explicit fuel (2000 = the size of the range): starting at `cur`,
return the first of the next `fuel` ports not contained in `allocated`. -/
def findFreePortLoop (allocated : List Int) : Nat → Int → Option Int
  | 0, _ => none
  | Nat.succ fuel, cur =>
      if allocated.contains cur then findFreePortLoop allocated fuel (cur + 1) else some cur

/-- Model of `allocate_port` from kennel-store/src/port_allocations.rs lines 37-69:
read the ports of all existing rows, pick the least port of
`[18000, 19999]` not among them (`PortPoolExhausted` when there is none) and
insert a row keyed by that port carrying the deployment, project, service and
branch. -/
def allocate_port (rows : List PortAllocationRow) (deploymentId : Nat)
    (projectName serviceName branch : String) :
    Except StoreError (Int × List PortAllocationRow) :=
  match findFreePortLoop (rows.map (fun r => r.port)) 2000 PORT_MIN with
  | none => .error .portPoolExhausted
  | some p =>
      .ok (p, rows ++ [⟨p, some deploymentId, some projectName, some serviceName, some branch⟩])

theorem findFreePortLoop_some (allocated : List Int) :
    ∀ (fuel : Nat) (cur p : Int), findFreePortLoop allocated fuel cur = some p →
      cur ≤ p ∧ p < cur + fuel ∧ allocated.contains p = false ∧
      (∀ q : Int, cur ≤ q → q < p → allocated.contains q = true) := by
  intro fuel
  induction fuel with
  | zero => intro cur p h; simp [findFreePortLoop] at h
  | succ n ih =>
      intro cur p h
      rw [findFreePortLoop] at h
      by_cases hc : allocated.contains cur = true
      · rw [if_pos hc] at h
        obtain ⟨h1, h2, h3, h4⟩ := ih (cur + 1) p h
        constructor
        · omega
        constructor
        · push_cast at h2 ⊢; omega
        constructor
        · exact h3
        · intro q hq1 hq2
          by_cases he : q = cur
          · rw [he]; exact hc
          · exact h4 q (by omega) hq2
      · rw [if_neg hc] at h
        injection h with h
        subst h
        constructor
        · exact le_refl _
        constructor
        · push_cast; omega
        constructor
        · simpa using hc
        · intro q hq1 hq2
          omega

theorem findFreePortLoop_none (allocated : List Int) :
    ∀ (fuel : Nat) (cur : Int), findFreePortLoop allocated fuel cur = none ↔
      (∀ q : Int, cur ≤ q → q < cur + fuel → allocated.contains q = true) := by
  intro fuel
  induction fuel with
  | zero =>
      intro cur
      constructor
      · intro _ q hq1 hq2; omega
      · intro _; rfl
  | succ n ih =>
      intro cur
      rw [findFreePortLoop]
      by_cases hc : allocated.contains cur = true
      · rw [if_pos hc, ih (cur + 1)]
        constructor
        · intro h q hq1 hq2
          by_cases he : q = cur
          · rw [he]; exact hc
          · refine h q (by omega) (by push_cast at hq2 ⊢; omega)
        · intro h q hq1 hq2
          refine h q (by omega) (by push_cast at hq2 ⊢; omega)
      · rw [if_neg hc]
        constructor
        · intro h; exact absurd h (by simp)
        · intro h
          exact absurd (h cur (le_refl _) (by omega)) hc

/-! ## Claim C6 -/

/-- Claim C6, counterexample: `sanitize_identifier` keeps the Latin-1 letter `é`
(Rust's Unicode `char::is_alphanumeric` accepts it and `to_ascii_lowercase`
leaves it unchanged), so the output of the sanitizer is not always contained
in `[a-z0-9-]` as the claim states. -/
theorem C6_counterexample :
    sanitize_identifier "é" = "é" ∧ 'é' ∈ (sanitize_identifier "é").data ∧
      ¬ inHostAlphabet 'é' := by
  refine ⟨?h1, by decide, by decide⟩
  decide

/-- Claim C6 (amended): `sanitize_identifier` is idempotent on every string, and
every ASCII character of its output lies in `[a-z0-9-]` (non-ASCII
Unicode-alphanumeric characters are passed through unchanged, so the
containment holds only for the ASCII part of the output). -/
theorem C6_sanitize (s : String) :
    sanitize_identifier (sanitize_identifier s) = sanitize_identifier s ∧
    ∀ c ∈ (sanitize_identifier s).data, c.toNat < 128 → inHostAlphabet c := by
  constructor
  · show (⟨(s.data.map sanitizeChar).map sanitizeChar⟩ : String) = ⟨s.data.map sanitizeChar⟩
    congr 1
    rw [List.map_map]
    exact List.map_congr_left (fun a _ => sanitizeChar_idem a)
  · intro c hc hlt
    obtain ⟨a, _, rfl⟩ := List.mem_map.mp hc
    exact sanitizeChar_ascii a hlt

/-- Witness for C6 at the concrete string `"A_b"`. -/
theorem C6_sanitize_witness :
    sanitize_identifier (sanitize_identifier "A_b") = sanitize_identifier "A_b" ∧
      inHostAlphabet 'a' := by
  refine ⟨(C6_sanitize "A_b").1, ?h2⟩
  exact (C6_sanitize "A_b").2 'a' (by decide) (by decide)

/-! ## Claim C3 -/

/-- Claim C3: `allocate_port` returns the least port of `[18000, 19999]` not among
the ports of the existing rows and appends an allocation row keyed by that
port; it returns `PortPoolExhausted` exactly when every port of the range is
already allocated. -/
theorem C3_allocate_port (rows : List PortAllocationRow) (deploymentId : Nat)
    (projectName serviceName branch : String) :
    (∀ p rows2,
      allocate_port rows deploymentId projectName serviceName branch = .ok (p, rows2) →
      PORT_MIN ≤ p ∧ p ≤ PORT_MAX ∧
      (rows.map (fun r => r.port)).contains p = false ∧
      (∀ q : Int, PORT_MIN ≤ q → q < p → (rows.map (fun r => r.port)).contains q = true) ∧
      rows2 = rows ++ [⟨p, some deploymentId, some projectName, some serviceName, some branch⟩]) ∧
    (allocate_port rows deploymentId projectName serviceName branch = .error .portPoolExhausted ↔
      ∀ q : Int, PORT_MIN ≤ q → q ≤ PORT_MAX → (rows.map (fun r => r.port)).contains q = true) := by
  constructor
  · intro p rows2 h
    unfold allocate_port at h
    cases hf : findFreePortLoop (rows.map (fun r => r.port)) 2000 PORT_MIN with
    | none => rw [hf] at h; exact absurd h (by simp)
    | some p0 =>
        rw [hf] at h
        injection h with h
        injection h with hp hrows
        obtain ⟨h1, h2, h3, h4⟩ := findFreePortLoop_some _ 2000 PORT_MIN p0 hf
        subst hp
        constructor
        · exact h1
        constructor
        · unfold PORT_MIN at h2; unfold PORT_MAX; omega
        constructor
        · exact h3
        constructor
        · exact h4
        · exact hrows.symm
  · constructor
    · intro h
      unfold allocate_port at h
      cases hf : findFreePortLoop (rows.map (fun r => r.port)) 2000 PORT_MIN with
      | some p0 => rw [hf] at h; exact absurd h (by simp)
      | none =>
          have hall := (findFreePortLoop_none _ 2000 PORT_MIN).mp hf
          intro q hq1 hq2
          refine hall q hq1 ?hlt
          unfold PORT_MIN; unfold PORT_MIN at hq1; unfold PORT_MAX at hq2; omega
    · intro hall
      unfold allocate_port
      have hf : findFreePortLoop (rows.map (fun r => r.port)) 2000 PORT_MIN = none := by
        apply (findFreePortLoop_none _ 2000 PORT_MIN).mpr
        intro q hq1 hq2
        refine hall q hq1 ?hle
        unfold PORT_MAX; unfold PORT_MIN at hq1 hq2; omega
      rw [hf]

/-- Witness for C3: allocating from an empty table yields port 18000 and the
corresponding row. -/
theorem C3_allocate_port_witness :
    PORT_MIN ≤ (18000 : Int) ∧ (18000 : Int) ≤ PORT_MAX ∧
      ([⟨18000, some 1, some "demo", some "api", some "main"⟩] : List PortAllocationRow) =
        [] ++ [⟨18000, some 1, some "demo", some "api", some "main"⟩] := by
  have h := (C3_allocate_port [] 1 "demo" "api" "main").1 18000
      [⟨18000, some 1, some "demo", some "api", some "main"⟩] rfl
  exact ⟨h.1, h.2.1, h.2.2.2.2⟩

/-! ## Deployments (kennel-store/src/deployments.rs, data model of spec §3) -/

/-- Model of `DeploymentStatus` of the entity model (the `deployments.status` column). -/
inductive DeploymentStatus where
  | pending : DeploymentStatus
  | building : DeploymentStatus
  | active : DeploymentStatus
  | failed : DeploymentStatus
  | tearingDown : DeploymentStatus
  | tornDown : DeploymentStatus
  deriving DecidableEq, Repr

/-- One row of the `deployments` table.  The entity crate itself is not under
src/; the fields are those read and written by kennel-store/src/deployments.rs
and kennel-deployer/src/service.rs and described in spec §3.  Timestamps are
not modelled. -/
structure Deployment where
  id : Nat
  projectName : String
  serviceName : String
  branch : String
  gitRef : String
  branchSlug : String
  environment : String
  domain : String
  storePath : Option String
  port : Option Int
  status : DeploymentStatus
  deriving DecidableEq, Repr

/-- The row filter of `mark_for_teardown` (deployments.rs lines 128-131):
same project, same branch, status `Active`. -/
def teardownFilter (projectName gitRef : String) (d : Deployment) : Bool :=
  decide (d.projectName = projectName ∧ d.branch = gitRef ∧ d.status = .active)

/-- Model of `mark_for_teardown` from kennel-store/src/deployments.rs lines 125-143:
an `UPDATE ... SET status = TearingDown WHERE project_name = ? AND branch = ?
AND status = Active`, returning `rows_affected` — the COUNT of updated rows,
not their ids.  (`updated_at` is not modelled.) -/
def mark_for_teardown (ds : List Deployment) (projectName gitRef : String) :
    List Deployment × Nat :=
  (ds.map (fun d => if teardownFilter projectName gitRef d
      then { d with status := .tearingDown } else d),
   (ds.filter (teardownFilter projectName gitRef)).length)

/-! ## Builds and the webhook handler (kennel-store/src/builds.rs,
kennel-webhook/src/parse.rs, kennel-webhook/src/handler.rs) -/

/-- Model of `BuildStatus` of the entity model. -/
inductive BuildStatus where
  | queued : BuildStatus
  | building : BuildStatus
  | success : BuildStatus
  | failed : BuildStatus
  | cancelled : BuildStatus
  deriving DecidableEq, Repr

/-- One row of the `builds` table (fields used by `create_build` and the
unique index `idx_builds_unique_commit` on `(project_name, commit_sha)`). -/
structure BuildRow where
  id : Nat
  projectName : String
  branch : String
  gitRef : String
  commitSha : String
  status : BuildStatus
  deriving DecidableEq, Repr

/-- Strip a leading `refs/heads/`, keeping the string unchanged otherwise.
This is both `event.git_ref.strip_prefix("refs/heads/").unwrap_or(..)` in
parse.rs and the `starts_with`/`strip_prefix` pair in builds.rs
`create_build`. -/
def stripRefsHeads (s : String) : String :=
  if "refs/heads/".data.isPrefixOf s.data then ⟨s.data.drop 11⟩ else s

/-- The 40-zero SHA marking a branch deletion (parse.rs line 5). -/
def ZERO_SHA : String := "0000000000000000000000000000000000000000"

/-- A parsed push payload: the fields of `ForgejoPushEvent` / `GitHubPushEvent`
that parse.rs reads (`ref`, `after`, pusher name).  JSON deserialization is
not modelled; the embedding starts from the deserialized struct. -/
structure PushEventPayload where
  gitRef : String
  after : String
  pusher : String
  deriving DecidableEq, Repr

/-- The semantic webhook events of kennel-webhook/src/events.rs. -/
inductive WebhookEvent where
  | push : (gitRef commitSha author : String) → (deleted : Bool) → WebhookEvent
  | pullRequest : (action : String) → (prNumber : Nat) →
      (commitSha author : String) → WebhookEvent
  deriving DecidableEq, Repr

/-- Model of `parse_push_event` from kennel-webhook/src/parse.rs lines 33-71 (both
forge flavors behave identically on these fields): strip `refs/heads/` from
`ref` if present — otherwise use the ref verbatim — and flag deletion when
`after` is the 40-zero SHA. -/
def parse_push_event (ev : PushEventPayload) : WebhookEvent :=
  .push (stripRefsHeads ev.gitRef) ev.after ev.pusher (ev.after == ZERO_SHA)

/-- The state the webhook handler touches: the `builds` table with its unique
index, the build queue, and the `deployments` table (for branch deletions). -/
structure WebhookState where
  builds : List BuildRow
  nextBuildId : Nat
  buildQueue : List Nat
  deployments : List Deployment
  deriving DecidableEq, Repr

/-- Model of `create_build` from kennel-store/src/builds.rs lines 103-132 under the
unique index `idx_builds_unique_commit` on `(project_name, commit_sha)`
added by migration m20260226_215312: the insert fails with a unique-violation
database error when a row with the same project and commit sha exists. -/
def create_build (builds : List BuildRow) (nextId : Nat)
    (projectName gitRef commitSha : String) :
    Except StoreError (BuildRow × List BuildRow) :=
  if builds.any (fun b => decide (b.projectName = projectName ∧ b.commitSha = commitSha)) then
    .error .uniqueViolation
  else
    let row : BuildRow :=
      { id := nextId, projectName := projectName, branch := stripRefsHeads gitRef,
        gitRef := gitRef, commitSha := commitSha, status := .queued }
    .ok (row, builds ++ [row])

/-- The push arm of `handle_webhook` (kennel-webhook/src/handler.rs lines
53-118) and the build-producing pull-request arm (lines 126-170), after
project lookup and signature verification: branch deletions call
`mark_for_teardown` and answer 202 (the enqueue loop over its result is the
subject of claim C7); otherwise `create_build` is attempted, a
unique-violation is absorbed with a 200 and no enqueue, and a fresh build id
is pushed on the build channel before answering 200.  PR actions other than
opened/synchronize/synchronized/reopened/closed answer 202.  The returned
`Nat` is the HTTP status. -/
def handle_webhook (st : WebhookState) (projectName : String) (ev : WebhookEvent) :
    WebhookState × Nat :=
  match ev with
  | .push gitRef commitSha _author deleted =>
      if deleted then
        ({ st with deployments := (mark_for_teardown st.deployments projectName gitRef).1 }, 202)
      else
        match create_build st.builds st.nextBuildId projectName gitRef commitSha with
        | .ok (b, builds2) =>
            ({ st with
                builds := builds2
                nextBuildId := st.nextBuildId + 1
                buildQueue := st.buildQueue ++ [b.id] }, 200)
        | .error _ => (st, 200)
  | .pullRequest action prNumber commitSha _author =>
      if action = "opened" ∨ action = "synchronize" ∨ action = "synchronized"
          ∨ action = "reopened" then
        match create_build st.builds st.nextBuildId projectName
            ("pr-" ++ toString prNumber) commitSha with
        | .ok (b, builds2) =>
            ({ st with
                builds := builds2
                nextBuildId := st.nextBuildId + 1
                buildQueue := st.buildQueue ++ [b.id] }, 200)
        | .error _ => (st, 200)
      else if action = "closed" then
        ({ st with deployments :=
            (mark_for_teardown st.deployments projectName ("pr-" ++ toString prNumber)).1 }, 202)
      else
        (st, 202)

theorem handle_webhook_push_ok (st : WebhookState) (p : String) (e : PushEventPayload)
    (hz : e.after ≠ ZERO_SHA)
    (hnodup : ∀ b ∈ st.builds, ¬(b.projectName = p ∧ b.commitSha = e.after)) :
    handle_webhook st p (parse_push_event e) =
      ({ st with
          builds := st.builds ++
            [⟨st.nextBuildId, p, stripRefsHeads (stripRefsHeads e.gitRef),
              stripRefsHeads e.gitRef, e.after, .queued⟩]
          nextBuildId := st.nextBuildId + 1
          buildQueue := st.buildQueue ++ [st.nextBuildId] }, 200) := by
  have hb : (e.after == ZERO_SHA) = false := beq_eq_false_iff_ne.mpr hz
  have hany : (st.builds.any
      (fun b => decide (b.projectName = p ∧ b.commitSha = e.after))) = false := by
    rw [List.any_eq_false]
    intro b hbmem
    simpa using hnodup b hbmem
  simp only [parse_push_event, handle_webhook, hb, Bool.false_eq_true, if_false,
    create_build, hany]

theorem handle_webhook_push_dup (st : WebhookState) (p : String) (e : PushEventPayload)
    (hz : e.after ≠ ZERO_SHA)
    (hdup : ∃ b ∈ st.builds, b.projectName = p ∧ b.commitSha = e.after) :
    handle_webhook st p (parse_push_event e) = (st, 200) := by
  have hb : (e.after == ZERO_SHA) = false := beq_eq_false_iff_ne.mpr hz
  have hany : (st.builds.any
      (fun b => decide (b.projectName = p ∧ b.commitSha = e.after))) = true := by
    rw [List.any_eq_true]
    obtain ⟨b, hbmem, hbp⟩ := hdup
    exact ⟨b, hbmem, by simpa using hbp⟩
  simp only [parse_push_event, handle_webhook, hb, Bool.false_eq_true, if_false,
    create_build, hany]
  rfl

/-! ## Claim C5 -/

/-- Claim C5: two push deliveries for the same `(project, commit_sha)` (arbitrary
refs and authors, same non-deletion commit sha) produce exactly one Build row
for that key and exactly one enqueue on the build channel; the second
delivery is absorbed with HTTP 200, leaving the state untouched. -/
theorem C5_build_dedup (st : WebhookState) (p : String) (e1 e2 : PushEventPayload)
    (hsha : e2.after = e1.after)
    (hz : e1.after ≠ ZERO_SHA)
    (hnodup : ∀ b ∈ st.builds, ¬(b.projectName = p ∧ b.commitSha = e1.after)) :
    ((handle_webhook (handle_webhook st p (parse_push_event e1)).1 p
        (parse_push_event e2)).1.builds.filter
          (fun b => decide (b.projectName = p ∧ b.commitSha = e1.after))).length = 1 ∧
    (handle_webhook (handle_webhook st p (parse_push_event e1)).1 p
        (parse_push_event e2)).1.buildQueue = st.buildQueue ++ [st.nextBuildId] ∧
    (handle_webhook (handle_webhook st p (parse_push_event e1)).1 p
        (parse_push_event e2)).2 = 200 ∧
    (handle_webhook (handle_webhook st p (parse_push_event e1)).1 p
        (parse_push_event e2)).1 = (handle_webhook st p (parse_push_event e1)).1 := by
  have h1 := handle_webhook_push_ok st p e1 hz hnodup
  have hz2 : e2.after ≠ ZERO_SHA := by rw [hsha]; exact hz
  have h2 := handle_webhook_push_dup (handle_webhook st p (parse_push_event e1)).1 p e2 hz2 ?hdup
  case hdup =>
    rw [h1]
    refine ⟨⟨st.nextBuildId, p, stripRefsHeads (stripRefsHeads e1.gitRef),
      stripRefsHeads e1.gitRef, e1.after, .queued⟩, ?hmem, rfl, hsha.symm⟩
    simp
  rw [h2, h1]
  refine ⟨?hlen, rfl, rfl, rfl⟩
  rw [List.filter_append]
  have hfl : st.builds.filter
      (fun b => decide (b.projectName = p ∧ b.commitSha = e1.after)) = [] := by
    rw [List.filter_eq_nil_iff]
    intro b hbmem
    simpa using hnodup b hbmem
  rw [hfl]
  simp

/-- Witness for C5 at a concrete pair of deliveries. -/
theorem C5_build_dedup_witness :
    ((handle_webhook (handle_webhook ⟨[], 1, [], []⟩ "demo"
        (parse_push_event ⟨"refs/heads/main", "deadbeef", "alice"⟩)).1 "demo"
        (parse_push_event ⟨"refs/heads/main", "deadbeef", "bob"⟩)).1.builds.filter
          (fun b => decide (b.projectName = "demo" ∧ b.commitSha = "deadbeef"))).length = 1 ∧
    (handle_webhook (handle_webhook ⟨[], 1, [], []⟩ "demo"
        (parse_push_event ⟨"refs/heads/main", "deadbeef", "alice"⟩)).1 "demo"
        (parse_push_event ⟨"refs/heads/main", "deadbeef", "bob"⟩)).1.buildQueue = [] ++ [1] := by
  have h := C5_build_dedup ⟨[], 1, [], []⟩ "demo"
      ⟨"refs/heads/main", "deadbeef", "alice"⟩ ⟨"refs/heads/main", "deadbeef", "bob"⟩
      rfl (by decide) (by simp)
  exact ⟨h.1, h.2.1⟩

/-! ## Claim C10 -/

/-- Claim C10: a push whose ref does not start with `refs/heads/` (for instance a
tag push `refs/tags/v1`) keeps the full ref verbatim as the branch of the
parsed Push event, and — when the sha is not the deletion marker and the
commit is new — the handler treats it as build-producing: it answers 200,
enqueues a fresh build id, and the created Build row names the full ref as
its branch. -/
theorem C10_tag_ref_push (ev : PushEventPayload) (st : WebhookState) (p : String)
    (href : "refs/heads/".data.isPrefixOf ev.gitRef.data = false)
    (hz : ev.after ≠ ZERO_SHA)
    (hnodup : ∀ b ∈ st.builds, ¬(b.projectName = p ∧ b.commitSha = ev.after)) :
    parse_push_event ev = .push ev.gitRef ev.after ev.pusher false ∧
    (handle_webhook st p (parse_push_event ev)).2 = 200 ∧
    (handle_webhook st p (parse_push_event ev)).1.buildQueue
      = st.buildQueue ++ [st.nextBuildId] ∧
    ⟨st.nextBuildId, p, ev.gitRef, ev.gitRef, ev.after, .queued⟩ ∈
      (handle_webhook st p (parse_push_event ev)).1.builds := by
  have hstrip : stripRefsHeads ev.gitRef = ev.gitRef := by
    simp only [stripRefsHeads, href]
    rfl
  have h1 := handle_webhook_push_ok st p ev hz hnodup
  constructor
  · simp only [parse_push_event, hstrip, beq_eq_false_iff_ne.mpr hz]
  constructor
  · rw [h1]
  constructor
  · rw [h1]
  · rw [h1]
    simp only [hstrip]
    simp

/-- Witness for C10 at the tag push `refs/tags/v1`. -/
theorem C10_tag_ref_push_witness :
    parse_push_event ⟨"refs/tags/v1", "deadbeef", "alice"⟩ =
      .push "refs/tags/v1" "deadbeef" "alice" false ∧
    (handle_webhook ⟨[], 5, [], []⟩ "demo"
        (parse_push_event ⟨"refs/tags/v1", "deadbeef", "alice"⟩)).1.buildQueue = [] ++ [5] := by
  have h := C10_tag_ref_push ⟨"refs/tags/v1", "deadbeef", "alice"⟩ ⟨[], 5, [], []⟩ "demo"
      (by decide) (by decide) (by simp)
  exact ⟨h.1, h.2.2.1⟩

/-! ## Claim C7 -/

/-- Claim C7, evaluation at the failing input: with two Active deployments of
project `demo`, one (id 7) on branch `feature-x` and one (id 8) on `main`,
`mark_for_teardown demo feature-x` transitions exactly deployment 7 to
`TearingDown` and leaves deployment 8 untouched — but it returns the COUNT of
affected rows (`1`, SeaORM's `rows_affected`), not the list of affected ids
(`[7]`) which its caller in kennel-webhook/src/handler.rs iterates over to
enqueue teardown requests. -/
theorem C7_mark_for_teardown :
    mark_for_teardown
      [⟨7, "demo", "api", "feature-x", "feature-x", "feature-x", "dev",
        "api-feature-x.demo.scottylabs.org", some "/nix/store/abc", some 18000, .active⟩,
       ⟨8, "demo", "api", "main", "main", "main", "prod",
        "api-main.demo.scottylabs.org", some "/nix/store/def", some 18001, .active⟩]
      "demo" "feature-x" =
      ([⟨7, "demo", "api", "feature-x", "feature-x", "feature-x", "dev",
        "api-feature-x.demo.scottylabs.org", some "/nix/store/abc", some 18000, .tearingDown⟩,
       ⟨8, "demo", "api", "main", "main", "main", "prod",
        "api-main.demo.scottylabs.org", some "/nix/store/def", some 18001, .active⟩], 1) ∧
    (([⟨7, "demo", "api", "feature-x", "feature-x", "feature-x", "dev",
        "api-feature-x.demo.scottylabs.org", some "/nix/store/abc", some 18000, .active⟩,
       ⟨8, "demo", "api", "main", "main", "main", "prod",
        "api-main.demo.scottylabs.org", some "/nix/store/def", some 18001,
        .active⟩].filter (teardownFilter "demo" "feature-x")).map (fun d => d.id)) = [7] := by
  constructor
  · rfl
  · rfl

/-! ## Deployer and teardown worker state (kennel-deployer) -/

/-- Errors of kennel-deployer/src/error.rs restricted to the kinds the claims
touch. -/
inductive DeployerError where
  | healthCheck : DeployerError
  | notFound : DeployerError
  | portAllocation : DeployerError
  | other : DeployerError
  deriving DecidableEq, Repr

/-- Supervisor state of one installed unit. -/
inductive UnitState where
  | started : UnitState
  | stopped : UnitState
  deriving DecidableEq, Repr

/-- Model of `RouterUpdate` from kennel-router/src/lib.rs lines 17-29. -/
inductive RouterUpdateMsg where
  | deploymentActive : (deploymentId : Nat) → (domain : String) → (port : Option Int) →
      (storePath : Option String) → (spa : Bool) → RouterUpdateMsg
  | deploymentRemoved : (domain : String) → RouterUpdateMsg
  | fullReload : RouterUpdateMsg
  deriving DecidableEq, Repr

/-- One row of the `preview_databases` table
(kennel-store/src/preview_databases.rs): the `valkey_db` column is
nullable. -/
structure PreviewDbRow where
  projectName : String
  branch : String
  databaseName : String
  valkeyDb : Option Int
  deriving DecidableEq, Repr

/-- The state deploy and teardown act on: the Store tables they read and
write, the in-memory port allocator of kennel-deployer/src/ports.rs
(`memPorts` — distinct from the `PortAllocation` table), OS-level resources
(units, users, secrets env-files, static-site symlinks), and the messages
broadcast on the routing update channel.  Filesystem directories, DNS records
and real time are not modelled; none of them feeds back into control flow of
the embedded functions. -/
structure SysState where
  deployments : List Deployment
  portAllocations : List PortAllocationRow
  previewDbs : List PreviewDbRow
  memPorts : List Int
  units : List (String × UnitState)
  users : List String
  secretsFiles : List String
  symlinks : List String
  broadcasts : List RouterUpdateMsg
  nextDeploymentId : Nat
  deriving DecidableEq, Repr

def SECRETS_DIR : String := "/run/kennel/secrets"

def SITES_BASE_DIR : String := "/var/lib/kennel/sites"

/-- Remove a unit from the supervisor's table. -/
def removeUnit (units : List (String × UnitState)) (name : String) :
    List (String × UnitState) :=
  units.filter (fun u => decide (u.1 ≠ name))

/-- Install-or-replace a unit with the given state. -/
def setUnit (units : List (String × UnitState)) (name : String) (s : UnitState) :
    List (String × UnitState) :=
  (name, s) :: removeUnit units name

/-- Model of `determine_environment` from kennel-deployer/src/service.rs lines 12-20. -/
def determine_environment (gitRef : String) : String :=
  if gitRef = "main" then "prod"
  else if gitRef = "staging" then "staging"
  else if gitRef = "dev" then "dev"
  else if "pr-".data.isPrefixOf gitRef.data then "preview"
  else "dev"

/-- The fields of a `build_results` row that `deploy_service` reads. -/
structure BuildResultRow where
  serviceName : String
  storePath : Option String
  deriving DecidableEq, Repr

/-- A `DeployRequest` (kennel-builder): build id, project, git ref. -/
structure DeploymentRequest where
  buildId : Nat
  projectName : String
  gitRef : String
  deriving DecidableEq, Repr

/-- Per-service manifest settings (kennel-config/src/config.rs
`ServiceConfig`) that `deploy_service` reads. -/
structure ServiceCfg where
  healthCheckPath : String
  healthCheckTimeoutSecs : Nat
  previewDatabase : Bool
  spa : Bool
  customDomain : Option String
  deriving DecidableEq, Repr

/-- Outcome of `check_health` (kennel-deployer/src/health.rs lines 5-45),
abstracted over real time: `probes` is the list of HTTP statuses the retry
loop observes before the wall-clock timeout elapses (a connection error can
be encoded as status 0); the loop returns Ok exactly when one of them is a
2xx, and times out with an error otherwise. -/
def check_health (probes : List Nat) : Bool :=
  probes.any (fun s => decide (200 ≤ s ∧ s ≤ 299))

/-- Model of `find_available_port`, called by deploy_service via
`store.port_allocations()`.  Modelled from the spec: the method is absent
from the `port_allocations.rs` under src/ (only its caller is present); spec
§4.2 fixes the search as the least port of `[18000, 19999]` with no
`PortAllocation` row, and the separate `allocate_for_deployment` call in
deploy_service shows the find does not itself insert. -/
def find_available_port (rows : List PortAllocationRow) : Option Int :=
  findFreePortLoop (rows.map (fun r => r.port)) 2000 PORT_MIN

/-- Rust's `str::replace('-', "_")`, used for the preview database name. -/
def replaceDashUnderscore (s : String) : String :=
  ⟨s.data.map (fun c => if c = '-' then '_' else c)⟩

/-- Model of `preview_databases().allocate` from
kennel-store/src/preview_databases.rs lines 126-152 with `allocate_valkey_db`
(lines 92-105): if `(project, branch)` already has a row, return its
`valkey_db` (`unwrap_or(0)` on the nullable column) without change;
otherwise scan `[0, 15]` for the least value not among the non-null
`valkey_db` entries (`ValkeyDbPoolExhausted` when there is none) and insert a
row carrying the derived database name
`{project.replace('-',"_")}_{branch.replace('-',"_")}`.  The range scan
reuses the same linear-search loop as the port allocator. -/
def preview_allocate (rows : List PreviewDbRow) (projectName branch : String) :
    Except StoreError (Int × List PreviewDbRow) :=
  match rows.find? (fun r => decide (r.projectName = projectName ∧ r.branch = branch)) with
  | some existing => .ok (existing.valkeyDb.getD 0, rows)
  | none =>
      match findFreePortLoop (rows.filterMap (fun r => r.valkeyDb)) 16 0 with
      | none => .error .valkeyDbPoolExhausted
      | some db =>
          .ok (db, rows ++ [⟨projectName, branch,
            replaceDashUnderscore projectName ++ "_" ++ replaceDashUnderscore branch,
            some db⟩])

/-- The preview-database step of `deploy_service` (service.rs lines
145-172): only run the allocator when the manifest sets
`preview_database = true` (`service_config.map(|s| s.preview_database)
.unwrap_or(false)`), and map a failed allocation to a deployer error
(`DeployerError::Other`). -/
def deployPreviewStep (previewFlag : Bool) (rows : List PreviewDbRow)
    (projectName branch : String) : Except DeployerError (Int × List PreviewDbRow) :=
  if previewFlag then
    match preview_allocate rows projectName branch with
    | .ok pr => .ok pr
    | .error _ => .error .other
  else .ok (0, rows)

/-- The unit name `kennel-{project}-{branch_sanitized}-{service}` computed in
deploy_service (service.rs lines 119-122; the blue/green arm recomputes the
same string at lines 341-344, so the "old" unit it stops carries the same
name). -/
def deployUnitName (req : DeploymentRequest) (br : BuildResultRow) : String :=
  "kennel-" ++ req.projectName ++ "-" ++ sanitize_identifier req.gitRef ++ "-" ++ br.serviceName

/-- The env-file path `{SECRETS_DIR}/{project}-{branch_sanitized}-{service}.env`
(secrets.rs lines 11-15). -/
def secretsPathOf (projectName branchSanitized serviceName : String) : String :=
  SECRETS_DIR ++ "/" ++ projectName ++ "-" ++ branchSanitized ++ "-" ++ serviceName ++ ".env"

/-- Result of one `deploy_service` run: the surfaced result, the final state,
and the trace of snapshots of the `deployments` table after each Store
mutation (head = initial table).  Every instant of the run shows one of the
snapshots of the trace. -/
structure DeployOutcome where
  result : Except DeployerError Unit
  state : SysState
  trace : List (List Deployment)
  deriving Repr

/-- Model of `deploy_service` from kennel-deployer/src/service.rs lines 89-363, with
`check_health`'s outcome carried by `probes`:
require a store path; look up an Active predecessor for
`(project, git_ref, service)`; ensure the OS user; find a free port; allocate
a preview database when configured; write the env-file; install, enable and
start the unit; run the health check — on failure stop the unit and surface
the error with no deployment row committed; otherwise insert the new `Active`
row, register the port, broadcast `DeploymentActive`, and if a predecessor
existed wait the 30 s drain (time not modelled), mark it `TearingDown`, stop
its unit (the recomputed "old" unit name equals the new one) and release its
port when different.  DNS record creation (lines 273-296) only logs failures
and is not modelled. -/
def deploy_service (req : DeploymentRequest) (br : BuildResultRow)
    (svcCfg : Option ServiceCfg) (baseDomain : String) (probes : List Nat)
    (st0 : SysState) : DeployOutcome :=
  match br.storePath with
  | none => ⟨.error .other, st0, [st0.deployments]⟩
  | some storePath =>
    let deps0 := st0.deployments
    let branchSanitized := sanitize_identifier req.gitRef
    let existing := deps0.find? (fun d => decide (d.projectName = req.projectName ∧
      d.gitRef = req.gitRef ∧ d.serviceName = br.serviceName ∧ d.status = .active))
    let unitName := deployUnitName req br
    let username := sanitize_username req.projectName branchSanitized br.serviceName
    let st1 := { st0 with users :=
      if st0.users.contains username then st0.users else st0.users ++ [username] }
    match find_available_port st1.portAllocations with
    | none => ⟨.error .portAllocation, st1, [deps0]⟩
    | some port =>
      match deployPreviewStep ((svcCfg.map (fun c => c.previewDatabase)).getD false)
          st1.previewDbs req.projectName req.gitRef with
      | .error e => ⟨.error e, st1, [deps0]⟩
      | .ok (_previewDb, previewDbs2) =>
        let st2 := { st1 with previewDbs := previewDbs2 }
        let spath := secretsPathOf req.projectName branchSanitized br.serviceName
        let st3 := { st2 with secretsFiles :=
          if st2.secretsFiles.contains spath then st2.secretsFiles
          else st2.secretsFiles ++ [spath] }
        let st4 := { st3 with units := setUnit st3.units unitName .started }
        if check_health probes = false then
          ⟨.error .healthCheck, { st4 with units := setUnit st4.units unitName .stopped },
            [deps0]⟩
        else
          let newDep : Deployment :=
            { id := st4.nextDeploymentId
              projectName := req.projectName
              serviceName := br.serviceName
              branch := req.gitRef
              gitRef := req.gitRef
              branchSlug := branchSanitized
              environment := determine_environment req.gitRef
              domain := generate_deployment_domain br.serviceName branchSanitized
                req.projectName baseDomain
              storePath := some storePath
              port := some port
              status := .active }
          let deps1 := deps0 ++ [newDep]
          let st5 := { st4 with
            deployments := deps1
            nextDeploymentId := st4.nextDeploymentId + 1 }
          let st6 := { st5 with portAllocations := st5.portAllocations ++
            [({ port := port, deploymentId := some newDep.id,
                projectName := some req.projectName, serviceName := some br.serviceName,
                branch := some branchSanitized } : PortAllocationRow)] }
          let st7 := { st6 with broadcasts := st6.broadcasts ++
            [RouterUpdateMsg.deploymentActive newDep.id newDep.domain (some port)
              (some storePath) false] }
          match existing with
          | none => ⟨.ok (), st7, [deps0, deps1]⟩
          | some old =>
            let deps2 := st7.deployments.map (fun d =>
              if decide (d.id = old.id) then { d with status := .tearingDown } else d)
            let st8 := { st7 with deployments := deps2 }
            let st9 := { st8 with units := setUnit st8.units unitName .stopped }
            let ports10 := match old.port with
              | some oldPort =>
                  if decide (oldPort ≠ port) then
                    st9.portAllocations.filter (fun r => decide (r.port ≠ oldPort))
                  else st9.portAllocations
              | none => st9.portAllocations
            let st10 := { st9 with portAllocations := ports10 }
            ⟨.ok (), st10, [deps0, deps1, deps2]⟩

/-- Model of `process_teardown` from kennel-deployer/src/teardown.rs lines 37-190:
load the deployment (404 error when absent); skip silently unless it is in
`TearingDown`; for a service deployment stop/disable/remove its unit and
release its port from the deployer's in-memory allocator; for a static
deployment remove the published symlink; remove the secrets env-file; when no
deployment row for `(project, service, branch)` remains (the row being torn
down still exists at this point, so it always finds itself), release the
preview database and remove the OS user; finally mark `TornDown` and delete
the row.  No message is sent on the routing update channel. -/
def process_teardown (st : SysState) (deploymentId : Nat) :
    Except DeployerError Unit × SysState :=
  match st.deployments.find? (fun d => decide (d.id = deploymentId)) with
  | none => (.error .notFound, st)
  | some d =>
    if d.status ≠ DeploymentStatus.tearingDown then (.ok (), st)
    else
      let unitName := "kennel-" ++ d.projectName ++ "-" ++ d.branchSlug ++ "-" ++ d.serviceName
      let st1 :=
        match d.port with
        | some p =>
            { st with
                units := removeUnit st.units unitName
                memPorts := st.memPorts.filter (fun q => decide (q ≠ p)) }
        | none =>
            { st with symlinks := st.symlinks.filter (fun l => decide (l ≠
                SITES_BASE_DIR ++ "/" ++ d.projectName ++ "/" ++ d.branchSlug
                  ++ "/" ++ d.serviceName)) }
      let spath := secretsPathOf d.projectName d.branchSlug d.serviceName
      let st2 := { st1 with secretsFiles := st1.secretsFiles.filter (fun f => decide (f ≠ spath)) }
      let st3 :=
        match st2.deployments.find? (fun d2 => decide (d2.projectName = d.projectName ∧
            d2.serviceName = d.serviceName ∧ d2.branch = d.branch)) with
        | some _ => st2
        | none =>
            { st2 with
                previewDbs := st2.previewDbs.filter (fun r =>
                  decide (¬(r.projectName = d.projectName ∧ r.branch = d.branch)))
                users := st2.users.filter (fun u =>
                  decide (u ≠ sanitize_username d.projectName d.branch d.serviceName)) }
      let deps3 := List.filter (fun d2 => decide (d2.id ≠ deploymentId))
        (st3.deployments.map (fun d2 =>
          if decide (d2.id = deploymentId) then { d2 with status := .tornDown } else d2))
      let st4 := { st3 with deployments := deps3 }
      (.ok (), st4)

/-! ## Claim C8 -/

/-- Claim C8, counterexample: a teardown request for deployment 1, which exists in
status `TearingDown` with domain `api-main.demo.scottylabs.org`, is processed
to completion (Ok result, row deleted), yet nothing at all is broadcast on
the routing update channel — in particular no `DeploymentRemoved` carrying
the deployment's domain. -/
theorem C8_counterexample :
    (process_teardown
      ⟨[⟨1, "demo", "api", "main", "main", "main", "prod",
          "api-main.demo.scottylabs.org", some "/nix/store/abc", some 18000, .tearingDown⟩],
        [], [], [18000], [("kennel-demo-main-api", .started)], [], [], [], [], 2⟩ 1).1
      = .ok () ∧
    (process_teardown
      ⟨[⟨1, "demo", "api", "main", "main", "main", "prod",
          "api-main.demo.scottylabs.org", some "/nix/store/abc", some 18000, .tearingDown⟩],
        [], [], [18000], [("kennel-demo-main-api", .started)], [], [], [], [], 2⟩ 1).2.deployments
      = [] ∧
    (process_teardown
      ⟨[⟨1, "demo", "api", "main", "main", "main", "prod",
          "api-main.demo.scottylabs.org", some "/nix/store/abc", some 18000, .tearingDown⟩],
        [], [], [18000], [("kennel-demo-main-api", .started)], [], [], [], [], 2⟩ 1).2.broadcasts
      = [] := by
  refine ⟨rfl, ?h2, ?h3⟩
  · rfl
  · rfl

/-- Claim C8 (amended): the teardown worker broadcasts nothing on the routing
update channel for any request — the route of a torn-down deployment is only
dropped by the router's periodic full reload. -/
theorem C8_teardown_no_broadcast (st : SysState) (deploymentId : Nat) :
    (process_teardown st deploymentId).2.broadcasts = st.broadcasts := by
  unfold process_teardown
  split
  · rfl
  · split
    · rfl
    · split
      · dsimp only
        split <;> rfl
      · dsimp only
        split <;> rfl

/-- The claim's uniqueness predicate: Active deployment of
`(project, service, branch)`. -/
def activeTriplePred (p s b : String) (d : Deployment) : Bool :=
  decide (d.projectName = p ∧ d.serviceName = s ∧ d.branch = b ∧
    d.status = DeploymentStatus.active)

theorem mem_of_filter_singleton {p : Deployment → Bool} {l : List Deployment}
    {old : Deployment} (h : l.filter p = [old]) : old ∈ l := by
  have hm : old ∈ l.filter p := by rw [h]; simp
  exact (List.mem_filter.mp hm).1

theorem eq_of_filter_singleton {p : Deployment → Bool} {l : List Deployment}
    {old : Deployment} (h : l.filter p = [old]) :
    ∀ d ∈ l, p d = true → d = old := by
  intro d hd hp
  have hm : d ∈ l.filter p := List.mem_filter.mpr ⟨hd, hp⟩
  rw [h] at hm
  simpa using hm

/-- After the blue/green transition of the predecessor, no row of the old
table remains Active for the triple. -/
theorem filter_update_nil (l : List Deployment) (old : Deployment) (p s b : String)
    (hact : l.filter (activeTriplePred p s b) = [old]) :
    (l.map (fun d => if decide (d.id = old.id) then
        { d with status := DeploymentStatus.tearingDown } else d)).filter
      (activeTriplePred p s b) = [] := by
  rw [List.filter_eq_nil_iff]
  intro x hx hpx
  obtain ⟨d, hd, rfl⟩ := List.mem_map.mp hx
  by_cases hid : d.id = old.id
  · rw [if_pos (by simpa using hid)] at hpx
    simp [activeTriplePred] at hpx
  · rw [if_neg (by simpa using hid)] at hpx
    exact hid ((eq_of_filter_singleton hact d hd hpx) ▸ rfl)

/-! ## Claim C2 -/

/-- Claim C2 (amended): when `deploy_service` replaces the unique Active
predecessor `old` of `(project, service, branch)` (free port available, no
preview database, health check passes), then (a) the run succeeds, (b) at
completion exactly one Active deployment exists for the triple — the freshly
inserted one, (c) the predecessor row is still present with status
`TearingDown` (the deployer neither marks it `TornDown` nor deletes it, and
enqueues no teardown request for it), and (d) the run passes through an
instant — after the health check has already succeeded — at which BOTH the
predecessor and the new row are Active for the triple (the two-Active window
lasts from the insert until the 30 s drain ends). -/
theorem blue_green_filter (l : List Deployment) (old n : Deployment) (p s b : String)
    (hact : l.filter (activeTriplePred p s b) = [old])
    (hnid : n.id ≠ old.id)
    (hpred : activeTriplePred p s b n = true) :
    ((l ++ [n]).map (fun d => if decide (d.id = old.id) then
        { d with status := DeploymentStatus.tearingDown } else d)).filter
      (activeTriplePred p s b) = [n] := by
  rw [List.map_append, List.filter_append]
  rw [filter_update_nil l old p s b hact]
  simp [hnid, hpred]

theorem C2_blue_green (req : DeploymentRequest) (br : BuildResultRow)
    (svcCfg : Option ServiceCfg) (baseDomain : String) (probes : List Nat)
    (st : SysState) (old : Deployment) (sp : String) (port : Int)
    (pr : Int × List PreviewDbRow)
    (hsp : br.storePath = some sp)
    (hport : find_available_port st.portAllocations = some port)
    (hprev : deployPreviewStep ((svcCfg.map (fun c => c.previewDatabase)).getD false)
      st.previewDbs req.projectName req.gitRef = .ok pr)
    (hhealth : check_health probes = true)
    (hfind : st.deployments.find? (fun d => decide (d.projectName = req.projectName ∧
      d.gitRef = req.gitRef ∧ d.serviceName = br.serviceName ∧
      d.status = DeploymentStatus.active)) = some old)
    (hact : st.deployments.filter
      (activeTriplePred req.projectName br.serviceName req.gitRef) = [old])
    (hfresh : ∀ d ∈ st.deployments, d.id ≠ st.nextDeploymentId) :
    (deploy_service req br svcCfg baseDomain probes st).result = .ok () ∧
    ((deploy_service req br svcCfg baseDomain probes st).state.deployments.filter
      (activeTriplePred req.projectName br.serviceName req.gitRef)).map (fun d => d.id)
        = [st.nextDeploymentId] ∧
    (∃ d ∈ (deploy_service req br svcCfg baseDomain probes st).state.deployments,
      d.id = old.id ∧ d.status = DeploymentStatus.tearingDown) ∧
    (∃ mid ∈ (deploy_service req br svcCfg baseDomain probes st).trace,
      (mid.filter (activeTriplePred req.projectName br.serviceName req.gitRef)).length = 2) := by
  have hold_mem : old ∈ st.deployments := mem_of_filter_singleton hact
  have holdid : old.id ≠ st.nextDeploymentId := hfresh old hold_mem
  obtain ⟨db, previewRows⟩ := pr
  simp only [deploy_service, hsp, hport, hprev, Bool.false_eq_true, Bool.true_eq_false,
    if_false, hhealth, hfind]
  refine ⟨by trivial, ?h2, ?h3, ?h4⟩
  case h2 =>
    rw [blue_green_filter st.deployments old
      { id := st.nextDeploymentId, projectName := req.projectName,
        serviceName := br.serviceName, branch := req.gitRef, gitRef := req.gitRef,
        branchSlug := sanitize_identifier req.gitRef,
        environment := determine_environment req.gitRef,
        domain := generate_deployment_domain br.serviceName (sanitize_identifier req.gitRef)
          req.projectName baseDomain,
        storePath := some sp, port := some port, status := DeploymentStatus.active }
      req.projectName br.serviceName req.gitRef hact (Ne.symm holdid)
      (by simp [activeTriplePred])]
    rfl
  case h3 =>
    refine ⟨{ old with status := DeploymentStatus.tearingDown }, ?hm, rfl, rfl⟩
    apply List.mem_map.mpr
    refine ⟨old, List.mem_append_left _ hold_mem, ?heq⟩
    rw [if_pos (by simp)]
  case h4 =>
    refine ⟨st.deployments ++
      [{ id := st.nextDeploymentId, projectName := req.projectName,
         serviceName := br.serviceName, branch := req.gitRef, gitRef := req.gitRef,
         branchSlug := sanitize_identifier req.gitRef,
         environment := determine_environment req.gitRef,
         domain := generate_deployment_domain br.serviceName (sanitize_identifier req.gitRef)
           req.projectName baseDomain,
         storePath := some sp, port := some port, status := DeploymentStatus.active }],
      ?hm4, ?hlen⟩
    · simp
    · rw [List.filter_append, hact]
      simp [activeTriplePred]

/-- Concrete predecessor used by the C2 counterexample and witness. -/
def c2old : Deployment :=
  ⟨1, "demo", "api", "main", "main", "main", "prod", "api-main.demo.scottylabs.org",
    some "/nix/store/old", some 18000, .active⟩

/-- Concrete initial state used by the C2 counterexample and witness: one
Active deployment of `(demo, api, main)` holding port 18000. -/
def c2st : SysState :=
  ⟨[c2old], [⟨18000, some 1, some "demo", some "api", some "main"⟩], [], [],
    [("kennel-demo-main-api", .started)], [], [], [], [], 2⟩

/-- Claim C2, counterexample: a second push deploys `(demo, api, main)` with the
health check passing (probe 200).  The run succeeds, but the trace of the
deployments table is `[1 Active, 2 Active, 1 Active]` for the triple: after
the new deployment has passed its health check and is inserted, the
predecessor is STILL Active (for the whole 30 s drain), violating "the
predecessor row may remain Active only until the new deployment has passed
its health check"; and at completion the predecessor row id 1 remains in the
table in status `TearingDown` — it is never transitioned to `TornDown` nor
deleted by the pipeline, since the blue/green arm enqueues no teardown
request, violating "after which the predecessor is transitioned to
TearingDown and eventually TornDown and deleted". -/
theorem C2_counterexample :
    (deploy_service ⟨42, "demo", "main"⟩ ⟨"api", some "/nix/store/new"⟩ none
      "scottylabs.org" [200] c2st).result = .ok () ∧
    (deploy_service ⟨42, "demo", "main"⟩ ⟨"api", some "/nix/store/new"⟩ none
      "scottylabs.org" [200] c2st).trace.map
        (fun l => (l.filter (activeTriplePred "demo" "api" "main")).length) = [1, 2, 1] ∧
    (deploy_service ⟨42, "demo", "main"⟩ ⟨"api", some "/nix/store/new"⟩ none
      "scottylabs.org" [200] c2st).state.deployments.map (fun d => (d.id, d.status)) =
      [(1, DeploymentStatus.tearingDown), (2, DeploymentStatus.active)] := by
  refine ⟨rfl, ?h2, ?h3⟩
  · decide
  · decide

/-- Witness for C2 at the concrete blue/green replacement. -/
theorem C2_blue_green_witness :
    (deploy_service ⟨42, "demo", "main"⟩ ⟨"api", some "/nix/store/new"⟩ none
      "scottylabs.org" [200] c2st).result = .ok () ∧
    ((deploy_service ⟨42, "demo", "main"⟩ ⟨"api", some "/nix/store/new"⟩ none
      "scottylabs.org" [200] c2st).state.deployments.filter
        (activeTriplePred "demo" "api" "main")).map (fun d => d.id) = [2] ∧
    (∃ d ∈ (deploy_service ⟨42, "demo", "main"⟩ ⟨"api", some "/nix/store/new"⟩ none
      "scottylabs.org" [200] c2st).state.deployments,
      d.id = c2old.id ∧ d.status = DeploymentStatus.tearingDown) ∧
    (∃ mid ∈ (deploy_service ⟨42, "demo", "main"⟩ ⟨"api", some "/nix/store/new"⟩ none
      "scottylabs.org" [200] c2st).trace,
      (mid.filter (activeTriplePred "demo" "api" "main")).length = 2) :=
  C2_blue_green ⟨42, "demo", "main"⟩ ⟨"api", some "/nix/store/new"⟩ none
    "scottylabs.org" [200] c2st c2old "/nix/store/new" 18001 (0, [])
    rfl rfl rfl rfl rfl rfl (by decide)

/-! ## Claim C4 -/

/-- Claim C4: if the health check never observes a 2xx among the probes it makes
within the configured timeout, `deploy_service` surfaces a health-check
error, the just-started unit ends up stopped, and the Store's deployment
state is untouched: the deployments table is unchanged at every instant of
the run and no port-allocation row is inserted. -/
theorem C4_failed_health (req : DeploymentRequest) (br : BuildResultRow)
    (svcCfg : Option ServiceCfg) (baseDomain : String) (probes : List Nat)
    (st : SysState) (sp : String) (port : Int)
    (pr : Int × List PreviewDbRow)
    (hsp : br.storePath = some sp)
    (hport : find_available_port st.portAllocations = some port)
    (hprev : deployPreviewStep ((svcCfg.map (fun c => c.previewDatabase)).getD false)
      st.previewDbs req.projectName req.gitRef = .ok pr)
    (hhealth : ∀ s ∈ probes, ¬(200 ≤ s ∧ s ≤ 299)) :
    (deploy_service req br svcCfg baseDomain probes st).result = .error .healthCheck ∧
    (deploy_service req br svcCfg baseDomain probes st).state.deployments
      = st.deployments ∧
    (deploy_service req br svcCfg baseDomain probes st).state.portAllocations
      = st.portAllocations ∧
    (deploy_service req br svcCfg baseDomain probes st).trace = [st.deployments] ∧
    (deploy_service req br svcCfg baseDomain probes st).state.units.find?
        (fun u => decide (u.1 = deployUnitName req br))
      = some (deployUnitName req br, UnitState.stopped) := by
  have hch : check_health probes = false := by
    rw [check_health, List.any_eq_false]
    intro s hs
    simpa using hhealth s hs
  obtain ⟨db, previewRows⟩ := pr
  simp only [deploy_service, hsp, hport, hprev, Bool.false_eq_true, Bool.true_eq_false,
    if_false, hch, eq_self_iff_true, if_true]
  refine ⟨by trivial, by trivial, by trivial, by trivial, ?hunit⟩
  rw [setUnit, List.find?_cons_of_pos _ (by simp)]

/-- Witness for C4 at a concrete failing deploy (all probes return 500). -/
theorem C4_failed_health_witness :
    (deploy_service ⟨42, "demo", "main"⟩ ⟨"api", some "/nix/store/new"⟩ none
      "scottylabs.org" [500, 500] ⟨[], [], [], [], [], [], [], [], [], 1⟩).result
      = .error .healthCheck ∧
    (deploy_service ⟨42, "demo", "main"⟩ ⟨"api", some "/nix/store/new"⟩ none
      "scottylabs.org" [500, 500] ⟨[], [], [], [], [], [], [], [], [], 1⟩).state.deployments
      = ([] : List Deployment) ∧
    (deploy_service ⟨42, "demo", "main"⟩ ⟨"api", some "/nix/store/new"⟩ none
      "scottylabs.org" [500, 500] ⟨[], [], [], [], [], [], [], [], [], 1⟩).state.units.find?
        (fun u => decide (u.1 = deployUnitName ⟨42, "demo", "main"⟩ ⟨"api", some "/nix/store/new"⟩))
      = some (deployUnitName ⟨42, "demo", "main"⟩ ⟨"api", some "/nix/store/new"⟩,
        UnitState.stopped) := by
  have h := C4_failed_health ⟨42, "demo", "main"⟩ ⟨"api", some "/nix/store/new"⟩ none
    "scottylabs.org" [500, 500] ⟨[], [], [], [], [], [], [], [], [], 1⟩ "/nix/store/new" 18000
    (0, []) rfl rfl rfl (by decide)
  exact ⟨h.1, h.2.1, h.2.2.2.2⟩

/-! ## Routing table (kennel-router/src/table.rs) -/

/-- The fields of a `services` row that the routing-table load reads. -/
structure ServiceRow where
  projectName : String
  name : String
  spa : Bool
  customDomain : Option String
  deriving DecidableEq, Repr

/-- Model of `RouteTarget` from table.rs lines 8-12. -/
inductive RouteTarget where
  | service : (port : Int) → RouteTarget
  | staticSite : (path : String) → (spa : Bool) → RouteTarget
  deriving DecidableEq, Repr

/-- Model of `Route` from table.rs lines 14-18. -/
structure Route where
  target : RouteTarget
  deploymentId : Nat
  deriving DecidableEq, Repr

/-- Router errors raised inside `load_from_deployments_with_services`
(both are `RouterError::Other` with distinct messages). -/
inductive RouterError where
  | serviceNotFound : Nat → RouterError
  | noStorePath : RouterError
  deriving DecidableEq, Repr

/-- Model of `HashMap::insert` on the host→route map: replace any existing entry for
the key. -/
def tableInsert (t : List (String × Route)) (domain : String) (r : Route) :
    List (String × Route) :=
  (domain, r) :: t.filter (fun e => decide (e.1 ≠ domain))

/-- The per-entry target computation of table.rs lines 71-84: a `Service`
target when the deployment has a port, otherwise a `StaticSite` from
`store_path` (error when that is null too). -/
def routeTargetOf (d : Deployment) (s : ServiceRow) : Except RouterError RouteTarget :=
  match d.port with
  | some p => .ok (RouteTarget.service p)
  | none =>
      match d.storePath with
      | some path => .ok (RouteTarget.staticSite path s.spa)
      | none => .error RouterError.noStorePath

/-- The loop of `load_from_deployments_with_services` (table.rs lines 63-98)
over the already-cleared table: for each pair, fail on a missing service
record, otherwise insert the generated domain and, when configured, the
custom domain, both pointing at the same route. -/
def loadLoop (t : List (String × Route)) :
    List (Deployment × Option ServiceRow) → List (String × Route) × Except RouterError Unit
  | [] => (t, .ok ())
  | (d, none) :: _ => (t, .error (.serviceNotFound d.id))
  | (d, some s) :: rest =>
      match routeTargetOf d s with
      | .error e => (t, .error e)
      | .ok target =>
          let r : Route := ⟨target, d.id⟩
          let t1 := tableInsert t d.domain r
          let t2 := match s.customDomain with
                    | some cd => tableInsert t1 cd r
                    | none => t1
          loadLoop t2 rest

/-- Model of `load_from_deployments_with_services` from table.rs lines 56-101: clear
the table unconditionally (`routes.clear()` under the writer lock), then run
the loop; an error mid-way returns leaving the partially repopulated table in
place.  The function returns the table contents after the call together with
the result. -/
def load_from_deployments_with_services (_table : List (String × Route))
    (input : List (Deployment × Option ServiceRow)) :
    List (String × Route) × Except RouterError Unit :=
  loadLoop [] input

theorem loadLoop_append_fail (d : Deployment) (rest : List (Deployment × Option ServiceRow)) :
    ∀ (pre : List (Deployment × Option ServiceRow)) (t : List (String × Route)),
      (∀ e ∈ pre, e.2.isSome ∧ (e.1.port.isSome ∨ e.1.storePath.isSome)) →
      loadLoop t (pre ++ (d, none) :: rest) =
        ((loadLoop t pre).1, .error (.serviceNotFound d.id)) := by
  intro pre
  induction pre with
  | nil => intro t _; rfl
  | cons e pre ih =>
      intro t hpre
      obtain ⟨hs, hps⟩ := hpre e (List.mem_cons_self e pre)
      obtain ⟨d', s'⟩ := e
      cases s' with
      | none => simp at hs
      | some s =>
          have htgt : ∃ target, routeTargetOf d' s = .ok target := by
            rw [routeTargetOf]
            cases hp : d'.port with
            | some p => exact ⟨RouteTarget.service p, rfl⟩
            | none =>
                cases hsp : d'.storePath with
                | some path => exact ⟨RouteTarget.staticSite path s.spa, rfl⟩
                | none =>
                    exfalso
                    rcases hps with h | h
                    · rw [hp] at h; simp at h
                    · rw [hsp] at h; simp at h
          obtain ⟨target, htgt⟩ := htgt
          rw [List.cons_append]
          rw [loadLoop, htgt]
          rw [loadLoop, htgt]
          exact ih _ (fun e2 he2 => hpre e2 (List.mem_cons_of_mem _ he2))

/-! ## Claim C9 -/

/-- Claim C9: `load_from_deployments_with_services` clears the table
unconditionally, and when an input pair with a missing service record is hit
after a prefix of well-formed pairs it errors part-way: the resulting table
is exactly the one obtained by loading the prefix into an EMPTY table —
independent of the table's previous contents, which are not restored — and
the error names the first deployment with the missing service. -/
theorem C9_partial_load (table : List (String × Route))
    (pre : List (Deployment × Option ServiceRow)) (d : Deployment)
    (rest : List (Deployment × Option ServiceRow))
    (hpre : ∀ e ∈ pre, e.2.isSome ∧ (e.1.port.isSome ∨ e.1.storePath.isSome)) :
    load_from_deployments_with_services table (pre ++ (d, none) :: rest) =
      ((load_from_deployments_with_services [] pre).1,
        .error (.serviceNotFound d.id)) := by
  rw [load_from_deployments_with_services, load_from_deployments_with_services]
  exact loadLoop_append_fail d rest pre [] hpre

/-- Concrete inputs for the C9 witness. -/
def c9dep : Deployment :=
  ⟨9, "demo", "api", "main", "main", "main", "prod", "api-main.demo.scottylabs.org",
    some "/nix/store/abc", some 18000, .active⟩

def c9svc : ServiceRow := ⟨"demo", "api", false, some "api.example.com"⟩

def c9bad : Deployment :=
  ⟨77, "demo", "web", "main", "main", "main", "prod", "web-main.demo.scottylabs.org",
    some "/nix/store/def", none, .active⟩

/-- Witness for C9: loading over a non-empty table with a well-formed first
pair and a service-less second pair errors naming deployment 77 and leaves
exactly the two routes of the first pair — the stale route is gone. -/
theorem C9_partial_load_witness :
    load_from_deployments_with_services
      [("stale.example.org", ⟨.service 9999, 5⟩)] [(c9dep, some c9svc), (c9bad, none)] =
      ([("api.example.com", ⟨.service 18000, 9⟩),
        ("api-main.demo.scottylabs.org", ⟨.service 18000, 9⟩)],
        .error (.serviceNotFound 77)) := by
  have h := C9_partial_load [("stale.example.org", ⟨.service 9999, 5⟩)]
    [(c9dep, some c9svc)] c9bad [] (by decide)
  exact h

/-! ## Static file server (kennel-router/src/static_serve.rs) -/

/-- Split a path string on `/`, dropping empty segments (leading slashes are
trimmed by `trim_start_matches('/')` and `Path::join`/canonicalize collapse
duplicate separators). -/
def pathSegsAux : List Char → List Char → List String
  | [], acc => if acc.isEmpty then [] else [⟨acc.reverse⟩]
  | c :: rest, acc =>
      if c = '/' then
        if acc.isEmpty then pathSegsAux rest []
        else ⟨acc.reverse⟩ :: pathSegsAux rest []
      else pathSegsAux rest (c :: acc)

def pathSegs (s : String) : List String :=
  pathSegsAux s.data []

/-- Lexical resolution performed by `canonicalize` on a filesystem without
symbolic links: `.` is dropped, `..` removes the last component (at the root
it stays at the root, as in POSIX). -/
def resolveSegs (segs : List String) : List String :=
  segs.foldl (fun acc seg =>
    if seg = "." then acc
    else if seg = ".." then acc.dropLast
    else acc ++ [seg]) []

/-- Model of `Path::canonicalize` over a model filesystem `fs` (the set of existing
absolute paths, each as its list of components, symlinks not modelled):
resolve dot components, then fail — as the real call does with `ENOENT` —
when the resolved path does not exist. -/
def canonicalizePath (fs : List (List String)) (p : List String) : Option (List String) :=
  let r := resolveSegs p
  if fs.contains r then some r else none

/-- Model of `tokio::fs::read` succeeds on existing non-directory paths. -/
def readableFile (fs dirs : List (List String)) (p : List String) : Bool :=
  fs.contains p && !(dirs.contains p)

/-- Model of `serve_spa_fallback` from static_serve.rs lines 6-21: read
`{base}/index.html`, 200 on success and 404 otherwise. -/
def serve_spa_fallback (fs dirs : List (List String)) (indexPath : List String) : Nat :=
  if readableFile fs dirs indexPath then 200 else 404

/-- Model of `serve_static` from static_serve.rs lines 23-89, returning the HTTP
status: join the request onto the base, canonicalize the base (500 on
failure); canonicalize the target — when THAT fails (the target does not
exist) reply 404, or the SPA fallback when `spa` — and only then apply the
path-traversal guard: 403 when the canonicalized target does not start with
the canonicalized base.  Then serve the file (directories via their
`index.html`), 200 on success, else SPA fallback or 404. -/
def serve_static (fs dirs : List (List String)) (base : List String)
    (requestPath : String) (spa : Bool) : Nat :=
  let filePath := base ++ pathSegs requestPath
  match canonicalizePath fs base with
  | none => 500
  | some baseCanonical =>
    match canonicalizePath fs filePath with
    | none => if spa then serve_spa_fallback fs dirs (base ++ ["index.html"]) else 404
    | some fileCanonical =>
      if (baseCanonical.isPrefixOf fileCanonical) = false then 403
      else
        let finalPath :=
          if dirs.contains fileCanonical then fileCanonical ++ ["index.html"]
          else fileCanonical
        if readableFile fs dirs finalPath then 200
        else if spa then serve_spa_fallback fs dirs (base ++ ["index.html"])
        else 404

/-! ## Claim C1 -/

/-- Claim C1, counterexample: base `/srv/site` exists, the request
`../../etc/passwd` contains `..` and its resolved target `/etc/passwd`
escapes the base — but the target does not exist, so canonicalization fails
BEFORE the traversal guard: with `spa = false` the server replies 404, and
with `spa = true` it even replies 200 (the SPA fallback serves the site's
`index.html`); in neither case the 403 the claim demands. -/
theorem C1_counterexample :
    (["srv", "site"].isPrefixOf
      (resolveSegs (["srv", "site"] ++ pathSegs "../../etc/passwd"))) = false ∧
    serve_static [[], ["srv"], ["srv", "site"], ["srv", "site", "index.html"], ["etc"]]
      [[], ["srv"], ["srv", "site"], ["etc"]]
      ["srv", "site"] "../../etc/passwd" false = 404 ∧
    serve_static [[], ["srv"], ["srv", "site"], ["srv", "site", "index.html"], ["etc"]]
      [[], ["srv"], ["srv", "site"], ["etc"]]
      ["srv", "site"] "../../etc/passwd" true = 200 := by
  refine ⟨by decide, ?h2, ?h3⟩
  · decide
  · decide

/-- Claim C1 (amended): for every filesystem, base path and request path whose
canonicalized target EXISTS and escapes the canonicalized base, the static
server replies 403 Forbidden, regardless of the `spa` flag. -/
theorem C1_traversal_guard (fs dirs : List (List String)) (base : List String)
    (requestPath : String) (spa : Bool) (bc fc : List String)
    (hbase : canonicalizePath fs base = some bc)
    (htgt : canonicalizePath fs (base ++ pathSegs requestPath) = some fc)
    (hesc : (bc.isPrefixOf fc) = false) :
    serve_static fs dirs base requestPath spa = 403 := by
  simp only [serve_static, hbase, htgt, hesc]
  rfl

/-- Witness for C1 at a filesystem where the escaped target `/etc/passwd`
exists, with `spa = true`. -/
theorem C1_traversal_guard_witness :
    serve_static
      [[], ["srv"], ["srv", "site"], ["srv", "site", "index.html"], ["etc"], ["etc", "passwd"]]
      [[], ["srv"], ["srv", "site"], ["etc"]]
      ["srv", "site"] "../../etc/passwd" true = 403 :=
  C1_traversal_guard
    [[], ["srv"], ["srv", "site"], ["srv", "site", "index.html"], ["etc"], ["etc", "passwd"]]
    [[], ["srv"], ["srv", "site"], ["etc"]]
    ["srv", "site"] "../../etc/passwd" true ["srv", "site"] ["etc", "passwd"]
    (by decide) (by decide) (by decide)
